import Mathlib

/-!
Verification development for an HTTP/1.1 pipelined client
(single-connection dispatcher with a tri-partite request queue,
retry-on-disconnect, keep-alive handling and redirect following).

The definitions below are shallow embeddings of the relevant source
functions; theorems settle the specified properties about them.
-/

set_option maxHeartbeats 1000000
set_option maxRecDepth 4000

namespace Undici

/-! ## Request lifecycle (`lib/core/request.js`)

A `Request` guards every handler callback behind its monotone `aborted`
flag: `onError` returns early when `aborted` is already set and otherwise
sets it before notifying the handler; `onConnect`/`onHeaders`/`onBody`/
`onUpgrade`/`onComplete` all `assert(!this.aborted)` before dispatching to
the handler, so no handler callback is delivered once `aborted` holds. -/

/-- A callback delivered to the bound handler. -/
inductive HandlerCb
  | onConnectCb
  | onHeadersCb
  | onDataCb
  | onUpgradeCb
  | onCompleteCb
  | onErrorCb
  deriving DecidableEq, Repr

/-- An invocation of one of the `Request` lifecycle methods. -/
inductive ReqCall
  | callConnect
  | callHeaders
  | callBody
  | callUpgrade
  | callComplete
  | callError
  deriving DecidableEq, Repr

/-- One lifecycle-method invocation on a `Request` whose `aborted` flag is
given: returns the new `aborted` flag and the handler callback delivered,
if any.  `onError` is a no-op when already aborted and otherwise sets
`aborted` before calling `handler.onError`; every other method asserts
`!aborted` (throwing, hence delivering nothing, when the flag is set). -/
def reqStep : Bool → ReqCall → Bool × Option HandlerCb
  | ab, .callError => if ab then (ab, none) else (true, some .onErrorCb)
  | ab, .callConnect => if ab then (ab, none) else (ab, some .onConnectCb)
  | ab, .callHeaders => if ab then (ab, none) else (ab, some .onHeadersCb)
  | ab, .callBody => if ab then (ab, none) else (ab, some .onDataCb)
  | ab, .callUpgrade => if ab then (ab, none) else (ab, some .onUpgradeCb)
  | ab, .callComplete => if ab then (ab, none) else (ab, some .onCompleteCb)

/-- The sequence of handler callbacks delivered by a sequence of lifecycle
method invocations, starting from a given `aborted` flag. -/
def reqTrace : Bool → List ReqCall → List HandlerCb
  | _, [] => []
  | ab, c :: cs =>
    match reqStep ab c with
    | (ab', some cb) => cb :: reqTrace ab' cs
    | (ab', none) => reqTrace ab' cs

/-! ## Pipelined client, first generation (`part_001`)

The `part_001` client keeps the tri-partite queue
`| complete | running | pending |` delimited by `kRunningIdx ≤ kPendingIdx`.
On socket close, `Parser.destroy(err)` errors the head running request and
re-enqueues the remaining running requests (all idempotent without a stream
body, by the scheduler guard) at the front of the pending region; the socket
`close` listener then decides whether and when to reconnect, doubling the
retry delay up to `socketTimeout`. -/

namespace OldClient

/-- A queued request of the first-generation client, as `Parser.destroy`
inspects it: its idempotence flag, whether its body is a stream, and an
identifying tag. -/
structure Req where
  idempotent : Bool
  streaming : Bool
  tag : Nat
  deriving DecidableEq, Repr

instance : Inhabited Req := ⟨⟨false, false, 0⟩⟩

/-- Post-state of `Parser.destroy`: the new queue and indices, plus the
requests that were invoked with the error, in invocation order. -/
structure DestroyResult where
  queue : List Req
  runningIdx : Nat
  pendingIdx : Nat
  errored : List Req
  deriving DecidableEq, Repr

/-- `Parser.destroy(err)` queue surgery (`part_001` lines 446-496): if no
request is running, nothing changes; otherwise the head running request is
pushed onto the error list, each remaining running request is kept for
retry when `idempotent && !streaming` and errored otherwise, the retried
requests replace `queue[0..pendingIdx)`, and both indices drop to 0. -/
def parserDestroy (q : List Req) (runningIdx pendingIdx : Nat) : DestroyResult :=
  if pendingIdx ≤ runningIdx then
    { queue := q, runningIdx := runningIdx, pendingIdx := pendingIdx, errored := [] }
  else
    let head := q.getD runningIdx default
    let slice := (q.drop (runningIdx + 1)).take (pendingIdx - (runningIdx + 1))
    let retryRequests := slice.filter fun r => r.idempotent && ! r.streaming
    let errorRequests := head :: slice.filter fun r => ! (r.idempotent && ! r.streaming)
    { queue := retryRequests ++ q.drop pendingIdx
      runningIdx := 0
      pendingIdx := 0
      errored := errorRequests }

/-- Reconnect decision taken by the socket `close` listener. -/
inductive Reconnect
  | noReconnect
  | immediate
  | after (ms : Nat)
  deriving DecidableEq, Repr

/-- The reconnect logic of the socket `close` listener (`part_001` lines
601-612): with pending requests, either reconnect immediately (setting the
retry delay to 1s) when the delay is 0, or schedule a reconnect after the
current delay and double it, capped at `socketTimeout`.  Returns the action
and the new retry delay. -/
def onCloseRetry (pending retryDelay socketTimeout : Nat) : Reconnect × Nat :=
  if 0 < pending then
    if 0 < retryDelay then
      (Reconnect.after retryDelay, min (retryDelay * 2) socketTimeout)
    else
      (Reconnect.immediate, 1000)
  else
    (Reconnect.noReconnect, retryDelay)

/-- Retry delay after `n` socket closes with pending work, starting from
the initial delay 0 (a successful `connect` resets the delay to 0). -/
def retryDelayIter (socketTimeout : Nat) : Nat → Nat
  | 0 => 0
  | n + 1 => (onCloseRetry 1 (retryDelayIter socketTimeout n) socketTimeout).2

end OldClient

/-! ## Keep-alive handling on headers-complete (`part_004` lines 709-747) -/

/-- ASCII lower-casing of a character (the header names compared by the
source are ASCII). -/
def lowerChar (c : Char) : Char :=
  if 65 ≤ c.toNat ∧ c.toNat ≤ 90 then Char.ofNat (c.toNat + 32) else c

/-- ASCII `toLowerCase()` on a string. -/
def lowerStr (s : String) : String :=
  String.mk (s.data.map lowerChar)

/-- Numeric value of a digit string. -/
def digitsVal (ds : List Char) : Nat :=
  ds.foldl (fun a c => a * 10 + (c.toNat - 48)) 0

/-- Match `timeout=<digits>` at the head of the character list. -/
def kaHere (l : List Char) : Option Nat :=
  if "timeout=".toList.isPrefixOf l then
    let ds := (l.drop 8).takeWhile Char.isDigit
    if ds.isEmpty then none else some (digitsVal ds)
  else none

/-- First match of `timeout=<digits>` anywhere in the character list. -/
def kaFind : List Char → Option Nat
  | [] => none
  | c :: rest =>
    match kaHere (c :: rest) with
    | some n => some n
    | none => kaFind rest

/-- Modelled from the spec: `util.parseKeepAliveTimeout` lives in
`core/util`, which is not among the sources.  Per the spec it parses
`Keep-Alive: timeout=N` and yields the advertised idle timeout in
milliseconds (`N` seconds). -/
def parseKeepAliveTimeout (s : String) : Option Nat :=
  (kaFind s.toList).map (· * 1000)

/-- The header scan of `Parser.onHeadersComplete` (`part_004` lines
712-724): find the first `keep-alive` and first `trailer` header values,
stopping as soon as both are found (via the `looking` flag). -/
def kaTrailerScan : List (String × String) → Option String → Option String → Bool →
    Option String × Option String
  | [], keepAlive, trailers, _ => (keepAlive, trailers)
  | _, keepAlive, trailers, false => (keepAlive, trailers)
  | (k, v) :: rest, keepAlive, trailers, true =>
    if keepAlive = none ∧ k.length = 10 ∧ lowerStr k = "keep-alive" then
      kaTrailerScan rest (some v) trailers (trailers = none)
    else if trailers = none ∧ k.length = 7 ∧ lowerStr k = "trailer" then
      kaTrailerScan rest keepAlive (some v) (keepAlive = none)
    else
      kaTrailerScan rest keepAlive trailers true

/-- Outcome of the keep-alive computation: the client's idle timeout value
and the socket's `kReset` flag. -/
structure KAResult where
  keepAliveTimeoutValue : Nat
  reset : Bool
  deriving DecidableEq, Repr

/-- The keep-alive section of `Parser.onHeadersComplete` (`part_004` lines
728-747).  When the response is keep-alive and pipelining is enabled, a
server-advertised `timeout=N` yields
`min(N*1000 - keepAliveTimeoutThreshold, keepAliveMaxTimeout)`: if that is
≤ 0 the socket is marked reset, otherwise it becomes the client's idle
timeout; without an advertisement the default applies.  A non-keep-alive
response (or `pipelining == 0`) marks the socket reset. -/
def computeKeepAlive (shouldKeepAlive : Bool) (pipelining : Nat)
    (rawHeaders : List (String × String))
    (keepAliveTimeoutThreshold keepAliveMaxTimeout keepAliveDefaultTimeout : Nat)
    (keepAliveTimeoutValue : Nat) (reset : Bool) : KAResult :=
  if shouldKeepAlive ∧ pipelining ≠ 0 then
    match (kaTrailerScan rawHeaders none none true).1.bind parseKeepAliveTimeout with
    | some keepAliveTimeout =>
      let timeout : Int :=
        min ((keepAliveTimeout : Int) - keepAliveTimeoutThreshold) keepAliveMaxTimeout
      if timeout ≤ 0 then
        { keepAliveTimeoutValue := keepAliveTimeoutValue, reset := true }
      else
        { keepAliveTimeoutValue := timeout.toNat, reset := reset }
    | none => { keepAliveTimeoutValue := keepAliveDefaultTimeout, reset := reset }
  else
    { keepAliveTimeoutValue := keepAliveTimeoutValue, reset := true }

/-! ## Redirect handling (`part_002`, `RedirectHandler`) -/

namespace Redirect

/-- The dispatch options a `RedirectHandler` rewrites before re-dispatch.
The body is abstracted to an optional payload identifier. -/
structure Opts where
  origin : String
  path : String
  method : String
  body : Option Nat
  headers : List (String × String)
  deriving DecidableEq, Repr

/-- Mutable state of a `RedirectHandler`: the `Location` of the current
response, if it is a redirect, and the (possibly rewritten) options. -/
structure HState where
  location : Option String
  opts : Opts
  deriving DecidableEq, Repr

/-- The statuses `RedirectHandler.onHeaders` treats as redirects. -/
def redirectStatuses : List Nat := [300, 301, 302, 303, 307, 308]

/-- `parseLocation(headers)`: value of the first `location` header. -/
def parseLocation : List (String × String) → Option String
  | [] => none
  | (k, v) :: rest =>
    if k.length = 8 ∧ lowerStr k = "location" then some v else parseLocation rest

/-- `shouldRemoveHeader(header, removeContent)`. -/
def shouldRemoveHeader (header : String) (removeContent : Bool) : Bool :=
  (header.length == 4 && lowerStr header == "host") ||
  (removeContent && "content-".data.isPrefixOf (lowerStr header).data)

/-- `cleanRequestHeaders(headers, removeContent)` (array form). -/
def cleanRequestHeaders (headers : List (String × String)) (removeContent : Bool) :
    List (String × String) :=
  headers.filter fun kv => ! shouldRemoveHeader kv.1 removeContent

/-- `RedirectHandler.onHeaders` (`part_002` lines 195-224).  `resolve`
stands for Node's URL resolution `new URL(location, origin)` followed by
`util.parseURL`, yielding the new `(origin, path)`; it is a collaborator
outside this repository.  Non-redirect statuses and redirects without a
`Location` header leave the options alone (the response is forwarded to the
wrapped handler); otherwise the options are rewritten for re-dispatch: the
`Host` header is removed (for 303 also all `Content-*` headers), and for a
303 whose method is not `HEAD` the method becomes `GET` and the body is
dropped. -/
def onHeaders (resolve : String → String → String × String)
    (st : HState) (statusCode : Nat) (headers : List (String × String)) : HState :=
  if statusCode ∉ redirectStatuses then st
  else
    match parseLocation headers with
    | none => { st with location := none }
    | some loc =>
      let res := resolve loc st.opts.origin
      let opts0 := { st.opts with
        headers := cleanRequestHeaders st.opts.headers (statusCode = 303)
        path := res.2
        origin := res.1 }
      let opts1 :=
        if statusCode = 303 ∧ opts0.method ≠ "HEAD" then
          { opts0 with method := "GET", body := none }
        else opts0
      { location := some loc, opts := opts1 }

end Redirect

/-! ## Pipelined client, current generation (`part_004`)

State machine of the `Client` class: the tri-partite queue with its two
indices, the socket with its `kConnecting`/`kWriting`/`kReset` flags, the
`kResuming` reentrancy guard, the `kNeedDrain` counter, and the `_resume`
scheduler loop together with the public `dispatch`/`close`/`destroy`
operations. -/

namespace Client4

/-- A request body as the scheduler and the writer inspect it. -/
inductive BodyKind
  | noBody
  | buffer (len : Nat)
  | stream (len : Option Nat)
  deriving DecidableEq, Repr

/-- `util.isStream(body)`. -/
def BodyKind.isStream : BodyKind → Bool
  | .stream _ => true
  | _ => false

/-- Modelled from the spec: `util.bodyLength` lives in `core/util`, which
is not among the sources.  Per the spec's writer section: 0 for a missing
body, a buffer's byte length, and a stream's known length if any. -/
def bodyLength : BodyKind → Option Nat
  | .noBody => some 0
  | .buffer n => some n
  | .stream l => l

/-- A validated request as `Client.dispatch` enqueues it.  `upgrade` is the
requested upgrade protocol (absent when not an upgrade request);
`contentLength` is the numerically captured `content-length` header;
`host` is the value of an explicit `host` header; `abortOnConnect` models
an abort signal that fires synchronously during `onConnect` registration
inside `write`. -/
structure Request where
  method : String
  path : String
  upgrade : Option String
  idempotent : Bool
  aborted : Bool
  body : BodyKind
  contentLength : Option Nat
  servername : Option String
  host : Option String
  headers : String
  abortOnConnect : Bool
  deriving DecidableEq, Repr

instance : Inhabited Request :=
  ⟨{ method := "GET", path := "/", upgrade := none, idempotent := true,
     aborted := false, body := .noBody, contentLength := none,
     servername := none, host := none, headers := "", abortOnConnect := false }⟩

/-- The per-parser timer phase. -/
inductive TimeoutKind
  | noTimeout
  | connectT
  | headersT
  | bodyT
  | idleT
  deriving DecidableEq, Repr

/-- The socket together with the client-owned flags stored on it. -/
structure Socket where
  connecting : Bool
  destroyed : Bool
  writing : Bool
  reset : Bool
  noRef : Bool
  servername : Option String
  timeoutType : TimeoutKind
  parserStatusCode : Nat
  deriving DecidableEq, Repr

/-- The `Client` state. -/
structure Client where
  queue : List Request
  runningIdx : Nat
  pendingIdx : Nat
  closed : Bool
  destroyed : Bool
  pipelining : Nat
  resuming : Nat
  needDrain : Nat
  socket : Option Socket
  serverName : Option String
  httpsProtocol : Bool
  strictContentLength : Bool
  hostHeader : String
  deriving DecidableEq, Repr

/-- `kPending`: number of not-yet-written requests. -/
def Client.pending (c : Client) : Nat := c.queue.length - c.pendingIdx

/-- `kRunning`: number of written requests awaiting their response. -/
def Client.running (c : Client) : Nat := c.pendingIdx - c.runningIdx

/-- `kSize`: running plus pending requests. -/
def Client.size (c : Client) : Nat := c.queue.length - c.runningIdx

/-- `this[kPipelining] || 1`. -/
def pipeliningOr1 (c : Client) : Nat := if c.pipelining = 0 then 1 else c.pipelining

/-- `kBusy` (`part_004` lines 214-221). -/
def Client.busy (c : Client) : Bool :=
  (match c.socket with
   | some s => s.reset || s.writing
   | none => false) ||
  decide (pipeliningOr1 c ≤ c.size) ||
  decide (0 < c.pending)

/-- The state change of `Client.destroy(err, callback)` (`part_004` lines
297-354), excluding the trailing `resume` call, which the call sites
compose explicitly: the pending region is spliced off (each spliced request
receives `onError`), the lifecycle flags are set and the socket destroyed. -/
def destroyCore (c : Client) : Client :=
  if c.destroyed then c
  else
    { c with
      queue := c.queue.take c.pendingIdx
      closed := true
      destroyed := true
      socket := c.socket.map fun s => { s with destroyed := true } }

/-- `connect(client)` (`part_004` lines 990-1028): a fresh connecting
socket with clean flags and the client's current SNI name. -/
def connectSocket (c : Client) : Client :=
  { c with socket := some {
      connecting := true
      destroyed := false
      writing := false
      reset := false
      noRef := false
      servername := c.serverName
      timeoutType := .noTimeout
      parserStatusCode := 0 } }

/-- Socket ref/unref and parser-timer bookkeeping at the top of each
`_resume` iteration (`part_004` lines 1065-1093). -/
def updateTimers (c : Client) : Client :=
  match c.socket with
  | none => c
  | some s =>
    let s1 :=
      if c.size = 0 then
        (if ! s.noRef then { s with noRef := true } else s)
      else
        (if s.noRef then { s with noRef := false } else s)
    let s2 :=
      if s1.connecting then
        (if s1.timeoutType ≠ TimeoutKind.connectT then { s1 with timeoutType := .connectT } else s1)
      else if c.size = 0 then
        (if s1.timeoutType ≠ TimeoutKind.idleT then { s1 with timeoutType := .idleT } else s1)
      else if 0 < c.running ∧ s1.parserStatusCode < 200 then
        (if s1.timeoutType ≠ TimeoutKind.headersT then { s1 with timeoutType := .headersT } else s1)
      else s1
    { c with socket := some s2 }

/-- `method === 'PUT' || method === 'POST' || method === 'PATCH'`. -/
def expectsPayload (method : String) : Bool :=
  method == "PUT" || method == "POST" || method == "PATCH"

/-- Result of `write(client, request)`: whether the request was accepted
(`return true`), the socket with its updated flags, and the chunks put on
the wire (payload bytes abstracted as `<buffer>`). -/
structure WriteRes where
  ok : Bool
  socket : Socket
  wire : List String
  errored : Bool
  deriving DecidableEq, Repr

/-- `write(client, request)` (`part_004` lines 1190-1463) up to the point
it returns.  A declared/actual content-length mismatch under
`strictContentLength` errors the request and refuses it; an abort during
`onConnect` registration refuses it; otherwise `HEAD`, upgrade and
`CONNECT` requests mark the socket reset, the request line and headers are
emitted (with `connection: upgrade`, `keep-alive`, or `close` according to
the upgrade flag and pipelining), and the body is framed by kind — a
buffer body on a method not expecting a payload also marks the socket
reset; a stream body sets `kWriting` and is drained by the body listeners
after `write` returns. -/
def write (strictContentLength : Bool) (pipelining : Nat) (hostHeader : String)
    (s : Socket) (r : Request) : WriteRes :=
  let cl1 :=
    match bodyLength r.body with
    | some n => some n
    | none => r.contentLength
  let contentLength :=
    if cl1 = some 0 ∧ ¬ expectsPayload r.method then none else cl1
  if r.contentLength ≠ none ∧ r.contentLength ≠ contentLength ∧ strictContentLength then
    { ok := false, socket := s, wire := [], errored := true }
  else if r.abortOnConnect then
    { ok := false, socket := s, wire := [], errored := true }
  else
    let s := if r.method = "HEAD" then { s with reset := true } else s
    let s := if r.upgrade ≠ none ∨ r.method = "CONNECT" then { s with reset := true } else s
    let requestLine := r.method ++ " " ++ r.path ++ " HTTP/1.1\r\n"
    let header :=
      match r.upgrade with
      | some proto => requestLine ++ "connection: upgrade\r\nupgrade: " ++ proto ++ "\r\n"
      | none =>
        if pipelining ≠ 0 then requestLine ++ "connection: keep-alive\r\n"
        else requestLine ++ "connection: close\r\n"
    let header := if r.host = none then header ++ hostHeader else header
    let header := header ++ r.headers
    match r.body with
    | .noBody =>
      if contentLength = some 0 then
        { ok := true, socket := s, wire := [header ++ "content-length: 0\r\n\r\n\r\n"], errored := false }
      else
        { ok := true, socket := s, wire := [header ++ "\r\n"], errored := false }
    | .buffer n =>
      let s := if ¬ expectsPayload r.method then { s with reset := true } else s
      { ok := true
        socket := s
        wire := [header ++ "content-length: " ++ toString (contentLength.getD n) ++ "\r\n\r\n",
                 "<buffer>", "\r\n"]
        errored := false }
    | .stream _ =>
      { ok := true, socket := { s with writing := true }, wire := [], errored := false }

/-- Result of one `_resume` loop iteration: either the loop returns with
this state, or it continues with it. -/
inductive StepRes
  | done (c : Client)
  | next (c : Client)
  deriving DecidableEq, Repr

/-- The client carried by a `StepRes`. -/
def StepRes.state : StepRes → Client
  | .done c => c
  | .next c => c

/-- `client[kNeedDrain] = n`. -/
def withNeedDrain (c : Client) (n : Nat) : Client := { c with needDrain := n }

/-- `client[kResuming] = n`. -/
def withResuming (c : Client) (n : Nat) : Client := { c with resuming := n }

/-- The amortized head compaction at the end of `resume` (`part_004`
lines 1044-1048): drop the completed slots and shift both indices down. -/
def compactHead (c : Client) : Client :=
  { c with
    queue := c.queue.drop c.runningIdx
    pendingIdx := c.pendingIdx - c.runningIdx
    runningIdx := 0 }

/-- Final stretch of one `_resume` iteration (`part_004` lines
1170-1186): refuse to write a stream-body request while anything else is
running, then attempt the write, advancing `kPendingIdx` on success and
splicing the request out on abort or synchronous write failure. -/
def resumeWrite (c : Client) (s : Socket) (request : Request) : StepRes :=
  if 0 < c.running ∧ request.body.isStream then .done c
  else if ¬ request.aborted then
    if (write c.strictContentLength c.pipelining c.hostHeader s request).ok then
      .next { c with
        pendingIdx := c.pendingIdx + 1
        socket := some (write c.strictContentLength c.pipelining c.hostHeader s request).socket }
    else
      .next { c with queue := c.queue.eraseIdx c.pendingIdx }
  else
    .next { c with queue := c.queue.eraseIdx c.pendingIdx }

/-- Tail of one `_resume` iteration from the socket checks onward
(`part_004` lines 1130-1187): connect when there is no socket; stop on a
destroyed/connecting/writing/reset socket; serialize non-idempotent and
upgrade/`CONNECT` requests (refuse to write them while anything else is
running); rewrite a zero-length stream body as no body; then hand over to
`resumeWrite`. -/
def resumeStep3 (c : Client) (request : Request) : StepRes :=
  match c.socket with
  | none => .next (connectSocket c)
  | some s =>
    if s.destroyed ∨ s.connecting ∨ s.writing ∨ s.reset then .done c
    else if 0 < c.running ∧ ¬ request.idempotent then .done c
    else if 0 < c.running ∧ (request.upgrade ≠ none ∨ request.method = "CONNECT") then .done c
    else if request.body.isStream ∧ bodyLength request.body = some 0 then
      let r2 := { request with body := BodyKind.noBody }
      resumeWrite { c with queue := c.queue.set c.pendingIdx r2 } s r2
    else
      resumeWrite c s request

/-- Middle of one `_resume` iteration (`part_004` lines 1107-1128): stop
when nothing is pending or the pipeline is full; peek the first pending
request; on an SNI change, drain the pipeline first, then adopt the new
name and recycle a socket whose SNI differs. -/
def resumeStep2 (c : Client) : StepRes :=
  if c.pending = 0 then .done c
  else if pipeliningOr1 c ≤ c.running then .done c
  else if c.httpsProtocol ∧
      c.serverName ≠ (c.queue.getD c.pendingIdx default).servername then
    if 0 < c.running then .done c
    else
      match c.socket with
      | some s =>
        if s.servername ≠ (c.queue.getD c.pendingIdx default).servername then
          .done { c with
            serverName := (c.queue.getD c.pendingIdx default).servername
            socket := some { s with destroyed := true } }
        else
          resumeStep3 { c with serverName := (c.queue.getD c.pendingIdx default).servername }
            (c.queue.getD c.pendingIdx default)
      | none =>
        resumeStep3 { c with serverName := (c.queue.getD c.pendingIdx default).servername }
          (c.queue.getD c.pendingIdx default)
  else resumeStep3 c (c.queue.getD c.pendingIdx default)

/-- One full iteration of the `_resume` loop (`part_004` lines 1051-1106
plus the tail above): self-destroy a closed empty client, do the timer
bookkeeping, and maintain `kNeedDrain` — a busy client is marked needing
drain; a non-busy one that needed drain emits `drain` (deferred by one
tick when `sync`) and rechecks. -/
def resumeStep (sync : Bool) (c : Client) : StepRes :=
  if c.destroyed then .done c
  else if c.closed ∧ c.size = 0 then .next (destroyCore c)
  else if (updateTimers c).busy then
    resumeStep2 (withNeedDrain (updateTimers c) 2)
  else if (updateTimers c).needDrain = 2 then
    .next (if sync then withNeedDrain (updateTimers c) 1
           else withNeedDrain (updateTimers c) 0)
  else
    resumeStep2 (updateTimers c)

/-- The `_resume` loop, bounded by fuel. -/
def resumeLoop (sync : Bool) : Nat → Client → Client
  | 0, c => c
  | fuel + 1, c =>
    match resumeStep sync c with
    | .done c' => c'
    | .next c' => resumeLoop sync fuel c'

/-- `resume(client, sync)` (`part_004` lines 1035-1049): reentrancy guard,
the `_resume` loop, then amortized head compaction once `kRunningIdx`
exceeds 256. -/
def resumeOp (sync : Bool) (fuel : Nat) (c : Client) : Client :=
  if c.resuming = 2 then c
  else if 256 < (withResuming (resumeLoop sync fuel (withResuming c 2)) 0).runningIdx then
    compactHead (withResuming (resumeLoop sync fuel (withResuming c 2)) 0)
  else
    withResuming (resumeLoop sync fuel (withResuming c 2)) 0

/-- `Client.destroy` followed by its trailing `resume(client)` (`sync`
argument absent, hence falsy); an already-destroyed client only queues
its callback and returns. -/
def destroyOp (fuel : Nat) (c : Client) : Client :=
  if c.destroyed then c else resumeOp false fuel (destroyCore c)

/-- `Client.close(callback)` (`part_004` lines 270-295), the callback
bookkeeping elided: an already-destroyed client is left alone; otherwise
`kClosed` is set and an empty client destroys itself at once. -/
def closeOp (fuel : Nat) (c : Client) : Client :=
  if c.destroyed then c
  else if ({ c with closed := true } : Client).size = 0 then
    destroyOp fuel { c with closed := true }
  else
    { c with closed := true }

/-- Errors surfaced by `dispatch`. -/
inductive UErr
  | invalidArgument
  | clientDestroyed
  | clientClosed
  | other
  deriving DecidableEq, Repr

/-- The shape of the handler argument that `dispatch` probes. -/
structure Handler where
  isObject : Bool
  hasOnError : Bool
  deriving DecidableEq, Repr

/-- Outcome of `Client.dispatch`: a synchronous throw, or a returned
boolean together with the error delivered through `handler.onError`, if
any, and the post-state. -/
inductive DispatchOutcome
  | threw (e : UErr) (c : Client)
  | returned (b : Bool) (delivered : Option UErr) (c : Client)
  deriving DecidableEq, Repr

/-- The client carried by a `DispatchOutcome`. -/
def DispatchOutcome.state : DispatchOutcome → Client
  | .threw _ c => c
  | .returned _ _ c => c

/-- The body of `dispatch`'s `try` block up to the enqueue: `mkRequest`
is the outcome of `new Request(opts, handler)` (`.error e` when request
construction throws `e`), followed by the destroyed and closed lifecycle
checks, in source order. -/
def tryRequest (c : Client) (mkRequest : Except UErr Request) : Except UErr Request :=
  match mkRequest with
  | .error e => .error e
  | .ok r =>
    if c.destroyed then .error .clientDestroyed
    else if c.closed then .error .clientClosed
    else .ok r

/-- The enqueue-and-resume step of `dispatch` (`part_004` lines 245-254):
push the request; when no resume is in flight, schedule one — deferred by
one tick (`kResuming = 1`) for a stream body, synchronous otherwise. -/
def dispatchEnqueue (fuel : Nat) (c : Client) (r : Request) : Client :=
  if ({ c with queue := c.queue ++ [r] } : Client).resuming ≠ 0 then
    { c with queue := c.queue ++ [r] }
  else if r.body.isStream then
    withResuming { c with queue := c.queue ++ [r] } 1
  else
    resumeOp true fuel { c with queue := c.queue ++ [r] }

/-- The needs-drain marking after enqueue (`part_004` lines 256-258). -/
def dispatchDrainMark (c : Client) : Client :=
  if c.resuming ≠ 0 ∧ c.needDrain ≠ 2 ∧ c.busy then withNeedDrain c 2 else c

/-- `Client.dispatch(opts, handler)` (`part_004` lines 229-268).
A non-object handler throws `InvalidArgumentError`; construction and
lifecycle errors throw `InvalidArgumentError` when the handler lacks an
`onError` function and are delivered through `handler.onError` otherwise;
on success the request is enqueued, the scheduler runs (deferred by a
tick for stream bodies), busy clients are marked needing drain, and
`kNeedDrain < 2` is returned. -/
def dispatch (fuel : Nat) (c : Client) (mkRequest : Except UErr Request)
    (handler : Handler) : DispatchOutcome :=
  if ¬ handler.isObject then .threw .invalidArgument c
  else
    match tryRequest c mkRequest with
    | .error e =>
      if ¬ handler.hasOnError then .threw .invalidArgument c
      else .returned (decide (c.needDrain < 2)) (some e) c
    | .ok r =>
      .returned
        (decide ((dispatchDrainMark (dispatchEnqueue fuel c r)).needDrain < 2)) none
        (dispatchDrainMark (dispatchEnqueue fuel c r))

/-- Queue integrity: `0 ≤ runningIdx ≤ pendingIdx ≤ queue.length`, with
the number of running requests bounded by `pipelining || 1`. -/
def Inv (c : Client) : Prop :=
  c.runningIdx ≤ c.pendingIdx ∧ c.pendingIdx ≤ c.queue.length ∧
  c.pendingIdx - c.runningIdx ≤ pipeliningOr1 c

/-- A request safe to pipeline behind others: idempotent, no stream body,
no upgrade, not `CONNECT`. -/
def pipelineable (r : Request) : Prop :=
  r.idempotent = true ∧ r.body.isStream = false ∧ r.upgrade = none ∧ r.method ≠ "CONNECT"

/-- The running region `queue[runningIdx..pendingIdx)`. -/
def runningSlice (c : Client) : List Request :=
  (c.queue.take c.pendingIdx).drop c.runningIdx

/-- Every running request behind the head is pipelineable. -/
def TailInv (c : Client) : Prop :=
  ∀ r ∈ (runningSlice c).tail, pipelineable r

/-- A freshly constructed client (no socket, empty queue), used as a
concrete evaluation point. -/
def sampleClient : Client :=
  { queue := []
    runningIdx := 0
    pendingIdx := 0
    closed := false
    destroyed := false
    pipelining := 1
    resuming := 0
    needDrain := 0
    socket := none
    serverName := none
    httpsProtocol := false
    strictContentLength := true
    hostHeader := "host: localhost\r\n" }

/-- `sampleClient` after `close`, used as a concrete evaluation point for
the lifecycle-error path of `dispatch`. -/
def sampleClosedClient : Client :=
  { sampleClient with closed := true }

end Client4

theorem reqTrace_aborted (cs : List ReqCall) : reqTrace true cs = [] := by
  induction cs with
  | nil => rfl
  | cons c cs ih => cases c <;> simpa [reqTrace, reqStep] using ih

theorem trace_cons_safe {cb : HandlerCb} {t : List HandlerCb}
    (hcb : cb ≠ HandlerCb.onErrorCb)
    (h1 : t.count HandlerCb.onErrorCb ≤ 1)
    (h2 : ∀ l₁ l₂, t = l₁ ++ HandlerCb.onErrorCb :: l₂ → l₂ = []) :
    (cb :: t).count HandlerCb.onErrorCb ≤ 1 ∧
    ∀ l₁ l₂, cb :: t = l₁ ++ HandlerCb.onErrorCb :: l₂ → l₂ = [] := by
  constructor
  · rw [List.count_cons]
    simp [hcb, h1]
  · intro l₁ l₂ h
    cases l₁ with
    | nil =>
      injection h with hhd _
      exact absurd hhd hcb
    | cons a as =>
      injection h with _ htl
      exact h2 as l₂ htl

/-- C3: for every dispatched request the handler observes at most one
`onError` call, and once it has been delivered no further handler callbacks
(`onHeaders`, `onData`, `onComplete`, `onUpgrade`, or a second `onError`)
are delivered: every trace of delivered callbacks contains at most one
error callback and nothing after an error callback. -/
theorem requestSingleTerminalError (calls : List ReqCall) :
    (reqTrace false calls).count HandlerCb.onErrorCb ≤ 1 ∧
    ∀ l₁ l₂, reqTrace false calls = l₁ ++ HandlerCb.onErrorCb :: l₂ → l₂ = [] := by
  induction calls with
  | nil =>
    refine ⟨by simp [reqTrace], ?_⟩
    intro l₁ l₂ h
    cases l₁ <;> simp [reqTrace] at h
  | cons c cs ih =>
    cases c
    case callError =>
      have htr : reqTrace false (ReqCall.callError :: cs) = [HandlerCb.onErrorCb] := by
        simp [reqTrace, reqStep, reqTrace_aborted]
      rw [htr]
      refine ⟨by decide, ?_⟩
      intro l₁ l₂ h
      cases l₁ with
      | nil =>
        injection h with _ htl
        exact htl.symm
      | cons a as =>
        injection h with _ htl
        cases as <;> simp at htl
    case callConnect =>
      have htr : reqTrace false (ReqCall.callConnect :: cs) =
          HandlerCb.onConnectCb :: reqTrace false cs := by
        simp [reqTrace, reqStep]
      rw [htr]
      exact trace_cons_safe (by decide) ih.1 ih.2
    case callHeaders =>
      have htr : reqTrace false (ReqCall.callHeaders :: cs) =
          HandlerCb.onHeadersCb :: reqTrace false cs := by
        simp [reqTrace, reqStep]
      rw [htr]
      exact trace_cons_safe (by decide) ih.1 ih.2
    case callBody =>
      have htr : reqTrace false (ReqCall.callBody :: cs) =
          HandlerCb.onDataCb :: reqTrace false cs := by
        simp [reqTrace, reqStep]
      rw [htr]
      exact trace_cons_safe (by decide) ih.1 ih.2
    case callUpgrade =>
      have htr : reqTrace false (ReqCall.callUpgrade :: cs) =
          HandlerCb.onUpgradeCb :: reqTrace false cs := by
        simp [reqTrace, reqStep]
      rw [htr]
      exact trace_cons_safe (by decide) ih.1 ih.2
    case callComplete =>
      have htr : reqTrace false (ReqCall.callComplete :: cs) =
          HandlerCb.onCompleteCb :: reqTrace false cs := by
        simp [reqTrace, reqStep]
      rw [htr]
      exact trace_cons_safe (by decide) ih.1 ih.2

/-- Witness for `requestSingleTerminalError` on a concrete call
sequence containing two error deliveries. -/
theorem requestSingleTerminalError_witness :
    (reqTrace false [ReqCall.callHeaders, ReqCall.callError, ReqCall.callBody,
      ReqCall.callError]).count HandlerCb.onErrorCb ≤ 1 :=
  (requestSingleTerminalError
    [ReqCall.callHeaders, ReqCall.callError, ReqCall.callBody, ReqCall.callError]).1

/-- C1: on a socket close with running requests whose tail is idempotent
and non-streaming (the scheduler guard guarantees this shape),
`Parser.destroy` errors exactly the head running request, the head is not
among the re-enqueued requests, and the remaining running requests become
the front of the pending region in their original order, with both indices
reset to 0. -/
theorem headOfLineFailure (q : List OldClient.Req) (runningIdx pendingIdx : Nat)
    (hrun : runningIdx < pendingIdx)
    (hlen : pendingIdx ≤ q.length)
    (htail : ∀ r ∈ (q.drop (runningIdx + 1)).take (pendingIdx - (runningIdx + 1)),
      r.idempotent = true ∧ r.streaming = false) :
    (OldClient.parserDestroy q runningIdx pendingIdx).errored = [q.getD runningIdx default] ∧
    (OldClient.parserDestroy q runningIdx pendingIdx).queue =
      (q.drop (runningIdx + 1)).take (pendingIdx - (runningIdx + 1)) ++ q.drop pendingIdx ∧
    (OldClient.parserDestroy q runningIdx pendingIdx).runningIdx = 0 ∧
    (OldClient.parserDestroy q runningIdx pendingIdx).pendingIdx = 0 := by
  have hif : ¬ (pendingIdx ≤ runningIdx) := by omega
  have h1 : ((q.drop (runningIdx + 1)).take (pendingIdx - (runningIdx + 1))).filter
      (fun r => r.idempotent && ! r.streaming) =
      (q.drop (runningIdx + 1)).take (pendingIdx - (runningIdx + 1)) := by
    refine List.filter_eq_self.mpr ?_
    intro a ha
    obtain ⟨hi, hs⟩ := htail a ha
    simp [hi, hs]
  have h2 : ((q.drop (runningIdx + 1)).take (pendingIdx - (runningIdx + 1))).filter
      (fun r => ! (r.idempotent && ! r.streaming)) = [] := by
    refine List.filter_eq_nil_iff.mpr ?_
    intro a ha
    obtain ⟨hi, hs⟩ := htail a ha
    simp [hi, hs]
  simp only [OldClient.parserDestroy, if_neg hif, h1, h2]
  refine ⟨?_, ?_, ?_, ?_⟩ <;> first | rfl | trivial

/-- Witness for `headOfLineFailure`: three requests, head running request
errored, second (idempotent, non-streaming) re-enqueued at the queue
front. -/
theorem headOfLineFailure_witness :
    (OldClient.parserDestroy
      [⟨false, true, 0⟩, ⟨true, false, 1⟩, ⟨true, false, 2⟩] 0 2).queue =
      [⟨true, false, 1⟩, ⟨true, false, 2⟩] :=
  (headOfLineFailure [⟨false, true, 0⟩, ⟨true, false, 1⟩, ⟨true, false, 2⟩] 0 2
    (by decide) (by decide) (by decide)).2.1

/-- C5: when the socket closes with pending requests, the client
reconnects — immediately, setting the retry delay to 1s, when the delay is
0, and otherwise after the current delay, doubling it capped at
`socketTimeout`; iterating failed reconnects from a fresh delay yields
`min(1000 * 2^n, socketTimeout)`. -/
theorem reconnectOnClose (pending retryDelay socketTimeout : Nat)
    (hpend : 0 < pending) :
    (retryDelay = 0 →
      OldClient.onCloseRetry pending retryDelay socketTimeout =
        (OldClient.Reconnect.immediate, 1000)) ∧
    (0 < retryDelay →
      OldClient.onCloseRetry pending retryDelay socketTimeout =
        (OldClient.Reconnect.after retryDelay, min (retryDelay * 2) socketTimeout)) ∧
    (1000 ≤ socketTimeout → ∀ n : Nat,
      OldClient.retryDelayIter socketTimeout (n + 1) = min (1000 * 2 ^ n) socketTimeout) := by
  refine ⟨?_, ?_, ?_⟩
  · intro h
    simp [OldClient.onCloseRetry, hpend, h]
  · intro h
    simp [OldClient.onCloseRetry, hpend, Nat.pos_iff_ne_zero.mp h, h]
  · intro hT n
    induction n with
    | zero =>
      simp [OldClient.retryDelayIter, OldClient.onCloseRetry]
      omega
    | succ n ih =>
      have hpow : 0 < 1000 * 2 ^ n := by positivity
      rw [OldClient.retryDelayIter, ih]
      simp only [OldClient.onCloseRetry, pow_succ]
      have hmin : 0 < min (1000 * 2 ^ n) socketTimeout := by omega
      simp only [if_pos Nat.one_pos, if_pos hmin]
      omega

/-- Witness for `reconnectOnClose` at concrete inputs. -/
theorem reconnectOnClose_witness :
    OldClient.onCloseRetry 2 1000 30000 = (OldClient.Reconnect.after 1000, 2000) :=
  ((reconnectOnClose 2 1000 30000 (by decide)).2.1 (by decide)).trans (by decide)

/-- C6: on headers-complete of a keep-alive response advertising
`Keep-Alive: timeout=N`, the idle timeout becomes
`min(N*1000 - keepAliveTimeoutThreshold, keepAliveMaxTimeout)`; when that
value is ≤ 0 the socket is marked reset instead and the idle timeout is
left unchanged. -/
theorem keepAliveIdleTimeout (pipelining : Nat) (rawHeaders : List (String × String))
    (threshold maxT defaultT curValue : Nat) (reset : Bool) (v : String) (n : Nat)
    (hpip : pipelining ≠ 0)
    (hscan : (kaTrailerScan rawHeaders none none true).1 = some v)
    (hparse : parseKeepAliveTimeout v = some (n * 1000)) :
    (0 < min ((n * 1000 : Int) - threshold) maxT →
      computeKeepAlive true pipelining rawHeaders threshold maxT defaultT curValue reset =
        { keepAliveTimeoutValue := (min ((n * 1000 : Int) - threshold) maxT).toNat
          reset := reset }) ∧
    (min ((n * 1000 : Int) - threshold) maxT ≤ 0 →
      computeKeepAlive true pipelining rawHeaders threshold maxT defaultT curValue reset =
        { keepAliveTimeoutValue := curValue, reset := true }) := by
  have hcast : ((n * 1000 : Nat) : Int) = (n * 1000 : Int) := by push_cast; ring
  constructor
  · intro h
    simp only [computeKeepAlive, hscan, Option.some_bind, hparse, hcast]
    rw [if_pos ⟨trivial, hpip⟩, if_neg (by omega)]
  · intro h
    simp only [computeKeepAlive, hscan, Option.some_bind, hparse, hcast]
    rw [if_pos ⟨trivial, hpip⟩, if_pos (by omega)]

/-- Witness for `keepAliveIdleTimeout`: `Keep-Alive: timeout=2` with a 1s
threshold and the default 600s cap yields a 1000ms idle timeout. -/
theorem keepAliveIdleTimeout_witness :
    computeKeepAlive true 1 [("Keep-Alive", "timeout=2")] 1000 600000 4000 4000 false =
      { keepAliveTimeoutValue := 1000, reset := false } := by
  have h := (keepAliveIdleTimeout 1 [("Keep-Alive", "timeout=2")] 1000 600000 4000 4000 false
    "timeout=2" 2 (by decide) (by rfl) (by rfl)).1 (by decide)
  simpa using h

/-- Counterexample to C9 as stated: a 303 redirect of a `HEAD` request
keeps its method and body — the method is not forced to `GET` for every
original method. -/
theorem redirect303_counterexample :
    (Redirect.onHeaders (fun loc _ => (loc, "/p"))
      { location := none
        opts := { origin := "http://a", path := "/", method := "HEAD"
                  body := some 1, headers := [] } }
      303 [("Location", "http://b/")]).opts.method ≠ "GET" ∧
    (Redirect.onHeaders (fun loc _ => (loc, "/p"))
      { location := none
        opts := { origin := "http://a", path := "/", method := "HEAD"
                  body := some 1, headers := [] } }
      303 [("Location", "http://b/")]).opts.body ≠ none := by
  constructor <;> decide

/-- C9 (amended): when a 303 redirect with a `Location` header is
followed, the re-dispatched request's method is forced to `GET` and its
body dropped for every original method except `HEAD`; a `HEAD` request
keeps its method and body. -/
theorem redirect303MethodRewrite (resolve : String → String → String × String)
    (st : Redirect.HState) (headers : List (String × String)) (loc : String)
    (hloc : Redirect.parseLocation headers = some loc) :
    (st.opts.method ≠ "HEAD" →
      (Redirect.onHeaders resolve st 303 headers).opts.method = "GET" ∧
      (Redirect.onHeaders resolve st 303 headers).opts.body = none) ∧
    (st.opts.method = "HEAD" →
      (Redirect.onHeaders resolve st 303 headers).opts.method = "HEAD" ∧
      (Redirect.onHeaders resolve st 303 headers).opts.body = st.opts.body) := by
  have hmem : (303 : Nat) ∈ Redirect.redirectStatuses := by decide
  constructor
  · intro hm
    simp [Redirect.onHeaders, hmem, hloc, hm]
  · intro hm
    simp [Redirect.onHeaders, hmem, hloc, hm]

/-- Witness for `redirect303MethodRewrite`: a 303 of a `POST` with a body
becomes a bodyless `GET`. -/
theorem redirect303MethodRewrite_witness :
    (Redirect.onHeaders (fun loc _ => (loc, "/p"))
      { location := none
        opts := { origin := "http://a", path := "/", method := "POST"
                  body := some 7, headers := [] } }
      303 [("Location", "http://b/")]).opts.method = "GET" :=
  ((redirect303MethodRewrite (fun loc _ => (loc, "/p"))
    { location := none
      opts := { origin := "http://a", path := "/", method := "POST"
                body := some 7, headers := [] } }
    [("Location", "http://b/")] "http://b/" (by rfl)).1 (by decide)).1

/-- Counterexample to C8 as stated: the writer accepts a `CONNECT`
request — `write` returns `true` and puts bytes on the wire rather than
rejecting it. -/
theorem connectWrite_counterexample :
    (Client4.write true 1 "host: a\r\n"
      { connecting := false, destroyed := false, writing := false, reset := false
        noRef := false, servername := none, timeoutType := .noTimeout
        parserStatusCode := 0 }
      { method := "CONNECT", path := "/", upgrade := none, idempotent := false
        aborted := false, body := .noBody, contentLength := none
        servername := none, host := none, headers := "", abortOnConnect := false }).ok
      = true ∧
    (Client4.write true 1 "host: a\r\n"
      { connecting := false, destroyed := false, writing := false, reset := false
        noRef := false, servername := none, timeoutType := .noTimeout
        parserStatusCode := 0 }
      { method := "CONNECT", path := "/", upgrade := none, idempotent := false
        aborted := false, body := .noBody, contentLength := none
        servername := none, host := none, headers := "", abortOnConnect := false }).wire
      ≠ [] := by
  constructor <;> decide

theorem writeGuardEq {C1 C2 : Prop} [Decidable C1] [Decidable C2]
    {bad1 bad2 good : Client4.WriteRes}
    (hb1 : bad1.ok = false) (hb2 : bad2.ok = false)
    (hok : (if C1 then bad1 else if C2 then bad2 else good).ok = true) :
    (if C1 then bad1 else if C2 then bad2 else good) = good := by
  by_cases h1 : C1
  · rw [if_pos h1] at hok
    rw [hb1] at hok
    exact absurd hok (by simp)
  · rw [if_neg h1] at hok ⊢
    by_cases h2 : C2
    · rw [if_pos h2] at hok
      rw [hb2] at hok
      exact absurd hok (by simp)
    · rw [if_neg h2]

/-- C8 (amended): the writer does not reject `CONNECT`; whenever it
accepts a `CONNECT` request it marks the socket reset, so no further
requests are dispatched on that connection, and the request itself is not
errored. -/
theorem connectWriteMarksReset (strict : Bool) (pipelining : Nat) (hostHeader : String)
    (s : Client4.Socket) (r : Client4.Request)
    (hm : r.method = "CONNECT")
    (hok : (Client4.write strict pipelining hostHeader s r).ok = true) :
    (Client4.write strict pipelining hostHeader s r).socket.reset = true ∧
    (Client4.write strict pipelining hostHeader s r).errored = false := by
  rcases hb : r.body with _ | n | l
  case noBody =>
    simp only [Client4.write, hb, Client4.bodyLength, hm] at hok ⊢
    rw [writeGuardEq rfl rfl hok]
    simp [Client4.expectsPayload]
  case buffer =>
    simp only [Client4.write, hb, Client4.bodyLength, hm] at hok ⊢
    rw [writeGuardEq rfl rfl hok]
    simp [Client4.expectsPayload]
  case stream =>
    simp only [Client4.write, hb, Client4.bodyLength, hm] at hok ⊢
    rw [writeGuardEq rfl rfl hok]
    simp [Client4.expectsPayload]

/-- Witness for `connectWriteMarksReset` at the concrete `CONNECT`
request of the counterexample. -/
theorem connectWriteMarksReset_witness :
    (Client4.write true 1 "host: a\r\n"
      { connecting := false, destroyed := false, writing := false, reset := false
        noRef := false, servername := none, timeoutType := .noTimeout
        parserStatusCode := 0 }
      { method := "CONNECT", path := "/", upgrade := none, idempotent := false
        aborted := false, body := .noBody, contentLength := none
        servername := none, host := none, headers := "", abortOnConnect := false }).socket.reset
      = true :=
  (connectWriteMarksReset true 1 "host: a\r\n" _ _ rfl (by decide)).1

/-! ### Preservation of the queue invariants by the `part_004` client -/

namespace Client4

theorem por1_congr {c c' : Client} (h : c'.pipelining = c.pipelining) :
    pipeliningOr1 c' = pipeliningOr1 c := by
  unfold pipeliningOr1
  rw [h]

theorem inv_of_eq {c c' : Client} (hq : c'.queue.length = c.queue.length)
    (hr : c'.runningIdx = c.runningIdx) (hp : c'.pendingIdx = c.pendingIdx)
    (hl : c'.pipelining = c.pipelining) (h : Inv c) : Inv c' := by
  unfold Inv at h ⊢
  rw [hq, hr, hp, por1_congr hl]
  exact h

theorem tailInv_of_eq {c c' : Client} (hq : c'.queue = c.queue)
    (hr : c'.runningIdx = c.runningIdx) (hp : c'.pendingIdx = c.pendingIdx)
    (h : TailInv c) : TailInv c' := by
  unfold TailInv runningSlice at h ⊢
  rw [hq, hr, hp]
  exact h

/-- Bundled preservation between a pre- and post-state: `kPipelining` is
unchanged, queue integrity is preserved, tail-pipelineability is
preserved, and `kNeedDrain` stays within `{0, 1, 2}`. -/
def Preserved (c c' : Client) : Prop :=
  c'.pipelining = c.pipelining ∧ (Inv c → Inv c') ∧
  (Inv c ∧ TailInv c → TailInv c') ∧ (c.needDrain ≤ 2 → c'.needDrain ≤ 2)

theorem preserved_rfl (c : Client) : Preserved c c :=
  ⟨rfl, id, fun h => h.2, id⟩

theorem preserved_trans {a b c : Client} (h1 : Preserved a b) (h2 : Preserved b c) :
    Preserved a c :=
  ⟨h2.1.trans h1.1, fun h => h2.2.1 (h1.2.1 h),
   fun h => h2.2.2.1 ⟨h1.2.1 h.1, h1.2.2.1 h⟩,
   fun h => h2.2.2.2 (h1.2.2.2 h)⟩

theorem preserved_of_eq {a b : Client} (hq : b.queue = a.queue)
    (hr : b.runningIdx = a.runningIdx) (hp : b.pendingIdx = a.pendingIdx)
    (hl : b.pipelining = a.pipelining) (hd : b.needDrain ≤ 2 ∨ b.needDrain = a.needDrain) :
    Preserved a b :=
  ⟨hl, inv_of_eq (by rw [hq]) hr hp hl, fun h => tailInv_of_eq hq hr hp h.2,
   fun h => hd.elim (fun h2 => h2) (fun h2 => by rw [h2]; exact h)⟩

theorem updateTimers_preserved (c : Client) : Preserved c (updateTimers c) := by
  rcases hs : c.socket with _ | s
  · exact preserved_of_eq (by simp [updateTimers, hs]) (by simp [updateTimers, hs])
      (by simp [updateTimers, hs]) (by simp [updateTimers, hs])
      (Or.inr (by simp [updateTimers, hs]))
  · exact preserved_of_eq (by simp [updateTimers, hs]) (by simp [updateTimers, hs])
      (by simp [updateTimers, hs]) (by simp [updateTimers, hs])
      (Or.inr (by simp [updateTimers, hs]))

theorem destroyCore_preserved (c : Client) : Preserved c (destroyCore c) := by
  unfold destroyCore
  split
  · exact preserved_rfl c
  · refine ⟨rfl, ?_, ?_, id⟩
    · rintro ⟨h1, h2, h3⟩
      refine ⟨h1, ?_, ?_⟩
      · show c.pendingIdx ≤ (c.queue.take c.pendingIdx).length
        simp only [List.length_take]
        omega
      · show c.pendingIdx - c.runningIdx ≤ pipeliningOr1 c
        exact h3
    · rintro ⟨_, hT⟩
      unfold TailInv runningSlice at hT ⊢
      show ∀ r ∈ (((c.queue.take c.pendingIdx).take c.pendingIdx).drop c.runningIdx).tail, _
      simpa [List.take_take] using hT

theorem connectSocket_preserved (c : Client) : Preserved c (connectSocket c) :=
  preserved_of_eq rfl rfl rfl rfl (Or.inr rfl)

theorem push_preserved (c : Client) (a : Request) :
    Preserved c { c with queue := c.queue ++ [a] } := by
  refine ⟨rfl, ?_, ?_, id⟩
  · rintro ⟨h1, h2, h3⟩
    refine ⟨h1, ?_, ?_⟩
    · show c.pendingIdx ≤ (c.queue ++ [a]).length
      simp only [List.length_append, List.length_cons, List.length_nil]
      omega
    · show c.pendingIdx - c.runningIdx ≤ pipeliningOr1 c
      exact h3
  · rintro ⟨⟨h1, h2, h3⟩, hT⟩
    unfold TailInv runningSlice at hT ⊢
    show ∀ x ∈ (((c.queue ++ [a]).take c.pendingIdx).drop c.runningIdx).tail, _
    rw [List.take_append_of_le_length h2]
    exact hT

theorem set_pending_preserved (c : Client) (r : Request) :
    Preserved c { c with queue := c.queue.set c.pendingIdx r } := by
  refine ⟨rfl, ?_, ?_, id⟩
  · rintro ⟨h1, h2, h3⟩
    refine ⟨h1, ?_, ?_⟩
    · show c.pendingIdx ≤ (c.queue.set c.pendingIdx r).length
      simpa using h2
    · show c.pendingIdx - c.runningIdx ≤ pipeliningOr1 c
      exact h3
  · rintro ⟨_, hT⟩
    unfold TailInv runningSlice at hT ⊢
    show ∀ x ∈ (((c.queue.set c.pendingIdx r).take c.pendingIdx).drop c.runningIdx).tail, _
    rw [List.set_take, List.set_eq_of_length_le (by simp [List.length_take])]
    exact hT

theorem erase_pending_preserved (c : Client) (hpend : c.pendingIdx < c.queue.length) :
    Preserved c { c with queue := c.queue.eraseIdx c.pendingIdx } := by
  refine ⟨rfl, ?_, ?_, id⟩
  · rintro ⟨h1, h2, h3⟩
    refine ⟨h1, ?_, ?_⟩
    · show c.pendingIdx ≤ (c.queue.eraseIdx c.pendingIdx).length
      rw [List.length_eraseIdx_of_lt hpend]
      omega
    · show c.pendingIdx - c.runningIdx ≤ pipeliningOr1 c
      exact h3
  · rintro ⟨_, hT⟩
    unfold TailInv runningSlice at hT ⊢
    show ∀ x ∈ (((c.queue.eraseIdx c.pendingIdx).take c.pendingIdx).drop c.runningIdx).tail, _
    rw [List.eraseIdx_eq_take_drop_succ, List.take_append_eq_append_take,
      List.take_take, Nat.min_self,
      List.length_take, Nat.min_eq_left (Nat.le_of_lt hpend), Nat.sub_self,
      List.take_zero, List.append_nil]
    exact hT

theorem tailInv_extend (c : Client) (request : Request)
    (h1 : c.runningIdx ≤ c.pendingIdx) (hpend : c.pendingIdx < c.queue.length)
    (hreq : c.queue.getD c.pendingIdx default = request)
    (hguard : 0 < c.pendingIdx - c.runningIdx → pipelineable request)
    (hT : TailInv c) :
    ∀ r ∈ ((c.queue.take (c.pendingIdx + 1)).drop c.runningIdx).tail, pipelineable r := by
  have hget : c.queue[c.pendingIdx]? = some request := by
    rw [List.getD_eq_getElem?_getD, List.getElem?_eq_getElem hpend] at hreq
    rw [List.getElem?_eq_getElem hpend]
    simpa using hreq
  have hq : c.queue.take (c.pendingIdx + 1) = c.queue.take c.pendingIdx ++ [request] := by
    rw [List.take_succ, hget]
    rfl
  rw [hq, List.drop_append_of_le_length (by simp only [List.length_take]; omega)]
  unfold TailInv runningSlice at hT
  by_cases hrun : 0 < c.pendingIdx - c.runningIdx
  · have hne : (c.queue.take c.pendingIdx).drop c.runningIdx ≠ [] := by
      rw [Ne, List.drop_eq_nil_iff]
      simp only [List.length_take]
      omega
    rw [List.tail_append_of_ne_nil hne]
    intro r hr
    rcases List.mem_append.mp hr with hmem | hmem
    · exact hT r hmem
    · rw [List.mem_singleton.mp hmem]
      exact hguard hrun
  · have hnil : (c.queue.take c.pendingIdx).drop c.runningIdx = [] := by
      rw [List.drop_eq_nil_iff]
      simp only [List.length_take]
      omega
    rw [hnil]
    simp

theorem resumeWrite_preserved (c : Client) (s : Socket) (request : Request)
    (hInv : Inv c)
    (hpend : c.pendingIdx < c.queue.length)
    (hrun : c.pendingIdx - c.runningIdx < pipeliningOr1 c)
    (hreq : c.queue.getD c.pendingIdx default = request)
    (hguard : 0 < c.pendingIdx - c.runningIdx →
      request.idempotent = true ∧ request.upgrade = none ∧ request.method ≠ "CONNECT") :
    Preserved c (resumeWrite c s request).state := by
  obtain ⟨h1, h2, h3⟩ := hInv
  unfold resumeWrite
  split
  · exact preserved_rfl c
  next hstream =>
    split
    next haborted =>
      split
      next hok =>
        refine ⟨rfl, ?_, ?_, id⟩
        · rintro _
          refine ⟨?_, ?_, ?_⟩
          · show c.runningIdx ≤ c.pendingIdx + 1
            omega
          · show c.pendingIdx + 1 ≤ c.queue.length
            omega
          · show c.pendingIdx + 1 - c.runningIdx ≤ pipeliningOr1 c
            omega
        · rintro ⟨_, hT⟩
          unfold TailInv
          show ∀ r ∈ ((c.queue.take (c.pendingIdx + 1)).drop c.runningIdx).tail, _
          refine tailInv_extend c request h1 hpend hreq ?_ hT
          intro hr
          have hg := hguard hr
          have hstr : request.body.isStream = false := by
            cases hx : request.body.isStream
            · rfl
            · exact absurd ⟨hr, hx⟩ hstream
          exact ⟨hg.1, hstr, hg.2.1, hg.2.2⟩
      next hok =>
        exact erase_pending_preserved c hpend
    next haborted =>
      exact erase_pending_preserved c hpend

theorem resumeStep3_preserved (c : Client) (request : Request)
    (hInv : Inv c)
    (hpend : c.pendingIdx < c.queue.length)
    (hrun : c.pendingIdx - c.runningIdx < pipeliningOr1 c)
    (hreq : c.queue.getD c.pendingIdx default = request) :
    Preserved c (resumeStep3 c request).state := by
  unfold resumeStep3
  split
  · exact connectSocket_preserved c
  · rename_i s hs
    split
    · exact preserved_rfl c
    · rename_i hg1
      split
      · exact preserved_rfl c
      · rename_i hg2
        split
        · exact preserved_rfl c
        · rename_i hg3
          have hguard : 0 < c.pendingIdx - c.runningIdx →
              request.idempotent = true ∧ request.upgrade = none ∧
              request.method ≠ "CONNECT" := by
            intro hr
            have hr' : 0 < c.running := hr
            refine ⟨?_, ?_, ?_⟩
            · cases hx : request.idempotent
              · exact absurd ⟨hr', by simp [hx]⟩ hg2
              · rfl
            · by_contra hx
              exact hg3 ⟨hr', Or.inl hx⟩
            · intro hx
              exact hg3 ⟨hr', Or.inr hx⟩
          split
          · rename_i hzero
            refine preserved_trans
              (set_pending_preserved c { request with body := BodyKind.noBody }) ?_
            refine resumeWrite_preserved _ s _ ?_ ?_ ?_ ?_ ?_
            · exact (set_pending_preserved c _).2.1 hInv
            · show c.pendingIdx < (c.queue.set c.pendingIdx _).length
              simpa using hpend
            · show c.pendingIdx - c.runningIdx < pipeliningOr1 c
              exact hrun
            · show (c.queue.set c.pendingIdx _).getD c.pendingIdx default = _
              rw [List.getD_eq_getElem?_getD, List.getElem?_set_self (by simpa using hpend)]
              rfl
            · intro hr
              exact hguard hr
          · rename_i hzero
            exact resumeWrite_preserved c s request hInv hpend hrun hreq hguard

theorem resumeStep2_preserved (c : Client) (hInv : Inv c) :
    Preserved c (resumeStep2 c).state := by
  unfold resumeStep2
  split
  · exact preserved_rfl c
  next hpending =>
    split
    · exact preserved_rfl c
    next hfull =>
      have hpend : c.pendingIdx < c.queue.length := by
        have h2 := hInv.2.1
        unfold Client.pending at hpending
        omega
      have hrun : c.pendingIdx - c.runningIdx < pipeliningOr1 c := by
        unfold Client.running at hfull
        omega
      split
      · split
        · exact preserved_rfl c
        · split
          · split
            · exact preserved_of_eq rfl rfl rfl rfl (Or.inr rfl)
            · exact preserved_trans (preserved_of_eq rfl rfl rfl rfl (Or.inr rfl))
                (resumeStep3_preserved _ _ hInv hpend hrun rfl)
          · exact preserved_trans (preserved_of_eq rfl rfl rfl rfl (Or.inr rfl))
              (resumeStep3_preserved _ _ hInv hpend hrun rfl)
      · exact resumeStep3_preserved c _ hInv hpend hrun rfl

theorem resumeStep_preserved (sync : Bool) (c : Client) (hInv : Inv c) :
    Preserved c (resumeStep sync c).state := by
  unfold resumeStep
  have hut := updateTimers_preserved c
  have hInv2 : Inv (updateTimers c) := hut.2.1 hInv
  split
  · exact preserved_rfl c
  · split
    · exact destroyCore_preserved c
    · split
      · refine preserved_trans (preserved_trans hut
          ((preserved_of_eq rfl rfl rfl rfl (Or.inl (by show (2 : Nat) ≤ 2; decide))) :
            Preserved (updateTimers c) (withNeedDrain (updateTimers c) 2))) ?_
        exact resumeStep2_preserved (withNeedDrain (updateTimers c) 2) (by exact hInv2)
      · split
        · split
          · exact preserved_trans hut
              (preserved_of_eq rfl rfl rfl rfl (Or.inl (by show (1 : Nat) ≤ 2; decide)))
          · exact preserved_trans hut
              (preserved_of_eq rfl rfl rfl rfl (Or.inl (by show (0 : Nat) ≤ 2; decide)))
        · exact preserved_trans hut (resumeStep2_preserved _ hInv2)

theorem resumeLoop_preserved (sync : Bool) (fuel : Nat) (c : Client) (hInv : Inv c) :
    Preserved c (resumeLoop sync fuel c) := by
  induction fuel generalizing c with
  | zero => exact preserved_rfl c
  | succ n ih =>
    unfold resumeLoop
    have hstep := resumeStep_preserved sync c hInv
    cases hs : resumeStep sync c with
    | done c' =>
      rw [hs] at hstep
      exact hstep
    | next c' =>
      rw [hs] at hstep
      simp only [StepRes.state] at hstep
      exact preserved_trans hstep (ih c' (hstep.2.1 hInv))

theorem compactHead_preserved (c : Client) (hInv : Inv c) :
    Preserved c (compactHead c) := by
  obtain ⟨h1, h2, h3⟩ := hInv
  unfold compactHead
  refine ⟨rfl, ?_, ?_, id⟩
  · rintro _
    refine ⟨Nat.zero_le _, ?_, ?_⟩
    · show c.pendingIdx - c.runningIdx ≤ (c.queue.drop c.runningIdx).length
      simp only [List.length_drop]
      omega
    · show c.pendingIdx - c.runningIdx - 0 ≤ pipeliningOr1 c
      omega
  · rintro ⟨_, hT⟩
    unfold TailInv runningSlice at hT ⊢
    show ∀ r ∈ ((((c.queue.drop c.runningIdx).take (c.pendingIdx - c.runningIdx))).drop 0).tail, _
    have hslice : (c.queue.drop c.runningIdx).take (c.pendingIdx - c.runningIdx) =
        (c.queue.take c.pendingIdx).drop c.runningIdx := by
      rw [List.take_drop, Nat.add_sub_cancel' h1]
    rw [List.drop_zero, hslice]
    exact hT

theorem resumeOp_preserved (sync : Bool) (fuel : Nat) (c : Client) (hInv : Inv c) :
    Preserved c (resumeOp sync fuel c) := by
  unfold resumeOp
  have h0 : Preserved c (withResuming c 2) :=
    preserved_of_eq rfl rfl rfl rfl (Or.inr rfl)
  have h1 := resumeLoop_preserved sync fuel (withResuming c 2) (h0.2.1 hInv)
  have h2 : Preserved c (withResuming (resumeLoop sync fuel (withResuming c 2)) 0) :=
    preserved_trans (preserved_trans h0 h1) (preserved_of_eq rfl rfl rfl rfl (Or.inr rfl))
  split
  · exact preserved_rfl c
  · split
    · exact preserved_trans h2 (compactHead_preserved _ (h2.2.1 hInv))
    · exact h2

theorem dispatchEnqueue_preserved (fuel : Nat) (c : Client) (r : Request) (hInv : Inv c) :
    Preserved c (dispatchEnqueue fuel c r) := by
  unfold dispatchEnqueue
  have hp := push_preserved c r
  split
  · exact hp
  · split
    · exact preserved_trans hp (preserved_of_eq rfl rfl rfl rfl (Or.inr rfl))
    · exact preserved_trans hp (resumeOp_preserved true fuel _ (hp.2.1 hInv))

theorem dispatchDrainMark_preserved (c : Client) : Preserved c (dispatchDrainMark c) := by
  unfold dispatchDrainMark
  split
  · exact preserved_of_eq rfl rfl rfl rfl (Or.inl (by show (2 : Nat) ≤ 2; decide))
  · exact preserved_rfl c

theorem dispatch_preserved (fuel : Nat) (c : Client) (mk : Except UErr Request)
    (h : Handler) (hInv : Inv c) :
    Preserved c (dispatch fuel c mk h).state := by
  unfold dispatch
  split
  · exact preserved_rfl c
  · split
    · split
      · exact preserved_rfl c
      · exact preserved_rfl c
    · rename_i r heq
      exact preserved_trans (dispatchEnqueue_preserved fuel c r hInv)
        (dispatchDrainMark_preserved _)

theorem destroyOp_preserved (fuel : Nat) (c : Client) (hInv : Inv c) :
    Preserved c (destroyOp fuel c) := by
  unfold destroyOp
  split
  · exact preserved_rfl c
  · have hd := destroyCore_preserved c
    exact preserved_trans hd (resumeOp_preserved false fuel _ (hd.2.1 hInv))

theorem closeOp_preserved (fuel : Nat) (c : Client) (hInv : Inv c) :
    Preserved c (closeOp fuel c) := by
  unfold closeOp
  split
  · exact preserved_rfl c
  · have hc : Preserved c ({ c with closed := true }) :=
      preserved_of_eq rfl rfl rfl rfl (Or.inr rfl)
    split
    · exact preserved_trans hc (destroyOp_preserved fuel _ (hc.2.1 hInv))
    · exact hc

theorem filter_length_le_one_of_tail {α : Type} (l : List α) (P : α → Bool)
    (h : ∀ r ∈ l.tail, P r = false) : (l.filter P).length ≤ 1 := by
  cases l with
  | nil => simp
  | cons a t =>
    have ht : t.filter P = [] := by
      rw [List.filter_eq_nil_iff]
      intro x hx
      simp [h x hx]
    cases hPa : P a <;> simp [List.filter_cons, hPa, ht]

end Client4

/-- C2: after every public operation (`dispatch`, `close`, `destroy`) and
every run of the resume scheduler, the queue indices satisfy
`0 ≤ runningIdx ≤ pendingIdx ≤ queue.length` and the number of running
requests (`pendingIdx - runningIdx`) never exceeds the pipelining limit. -/
theorem queueIntegrity (fuel : Nat) (sync : Bool) (c : Client4.Client)
    (mk : Except Client4.UErr Client4.Request) (h : Client4.Handler)
    (hInv : Client4.Inv c) (hp : 1 ≤ c.pipelining) :
    (Client4.Inv (Client4.dispatch fuel c mk h).state ∧
      ((Client4.dispatch fuel c mk h).state).running ≤ c.pipelining) ∧
    (Client4.Inv (Client4.closeOp fuel c) ∧
      (Client4.closeOp fuel c).running ≤ c.pipelining) ∧
    (Client4.Inv (Client4.destroyOp fuel c) ∧
      (Client4.destroyOp fuel c).running ≤ c.pipelining) ∧
    (Client4.Inv (Client4.resumeOp sync fuel c) ∧
      (Client4.resumeOp sync fuel c).running ≤ c.pipelining) := by
  have hpor : Client4.pipeliningOr1 c = c.pipelining := by
    unfold Client4.pipeliningOr1
    rw [if_neg (by omega)]
  have hgen : ∀ c' : Client4.Client, Client4.Preserved c c' →
      Client4.Inv c' ∧ c'.running ≤ c.pipelining := by
    intro c' hpr
    have hI := hpr.2.1 hInv
    refine ⟨hI, ?_⟩
    have h3 := hI.2.2
    have hpe : Client4.pipeliningOr1 c' = Client4.pipeliningOr1 c := Client4.por1_congr hpr.1
    unfold Client4.Client.running
    omega
  exact ⟨hgen _ (Client4.dispatch_preserved fuel c mk h hInv),
    hgen _ (Client4.closeOp_preserved fuel c hInv),
    hgen _ (Client4.destroyOp_preserved fuel c hInv),
    hgen _ (Client4.resumeOp_preserved sync fuel c hInv)⟩

/-- Witness for `queueIntegrity` at a concrete fresh client. -/
theorem queueIntegrity_witness :
    Client4.Inv (Client4.resumeOp true 3 Client4.sampleClient) ∧
    (Client4.resumeOp true 3 Client4.sampleClient).running ≤
      Client4.sampleClient.pipelining :=
  (queueIntegrity 3 true Client4.sampleClient (Except.ok default) ⟨true, true⟩
    ⟨by decide, by decide, by decide⟩ (by decide)).2.2.2

/-- C4: the scheduler refuses to write a non-idempotent, stream-body,
upgrade or `CONNECT` request while any other request is running, so the
running region holds at most one non-idempotent request and at most one
stream-body request: every running request behind the head is
pipelineable, this is preserved by the public operations and every
scheduler run, and it bounds both counts by one. -/
theorem exclusiveRunning (fuel : Nat) (sync : Bool) (c : Client4.Client)
    (mk : Except Client4.UErr Client4.Request) (h : Client4.Handler)
    (hInv : Client4.Inv c) (hT : Client4.TailInv c) :
    (Client4.TailInv (Client4.dispatch fuel c mk h).state ∧
      Client4.TailInv (Client4.closeOp fuel c) ∧
      Client4.TailInv (Client4.destroyOp fuel c) ∧
      Client4.TailInv (Client4.resumeOp sync fuel c)) ∧
    ((Client4.runningSlice (Client4.resumeOp sync fuel c)).filter
        (fun r => ! r.idempotent)).length ≤ 1 ∧
    ((Client4.runningSlice (Client4.resumeOp sync fuel c)).filter
        (fun r => r.body.isStream)).length ≤ 1 := by
  have hTres : Client4.TailInv (Client4.resumeOp sync fuel c) :=
    (Client4.resumeOp_preserved sync fuel c hInv).2.2.1 ⟨hInv, hT⟩
  refine ⟨⟨?_, ?_, ?_, hTres⟩, ?_, ?_⟩
  · exact (Client4.dispatch_preserved fuel c mk h hInv).2.2.1 ⟨hInv, hT⟩
  · exact (Client4.closeOp_preserved fuel c hInv).2.2.1 ⟨hInv, hT⟩
  · exact (Client4.destroyOp_preserved fuel c hInv).2.2.1 ⟨hInv, hT⟩
  · refine Client4.filter_length_le_one_of_tail _ _ ?_
    intro r hr
    have hpl := hTres r hr
    simp [hpl.1]
  · refine Client4.filter_length_le_one_of_tail _ _ ?_
    intro r hr
    have hpl := hTres r hr
    exact hpl.2.1

/-- Witness for `exclusiveRunning` at a concrete fresh client. -/
theorem exclusiveRunning_witness :
    ((Client4.runningSlice (Client4.resumeOp true 3 Client4.sampleClient)).filter
        (fun r => ! r.idempotent)).length ≤ 1 :=
  (exclusiveRunning 3 true Client4.sampleClient (Except.ok default) ⟨true, true⟩
    ⟨by decide, by decide, by decide⟩
    (by intro r hr; simp [Client4.runningSlice, Client4.sampleClient] at hr)).2.1

/-- C7: `dispatch` returns `false` iff the client is in the needs-drain
state after enqueuing (`kNeedDrain` has reached 2); otherwise it returns
`true`. -/
theorem dispatchFalseIffNeedDrain (fuel : Nat) (c : Client4.Client)
    (mk : Except Client4.UErr Client4.Request) (h : Client4.Handler)
    (hInv : Client4.Inv c) (hnd : c.needDrain ≤ 2) :
    ∀ b delivered c', Client4.dispatch fuel c mk h =
        Client4.DispatchOutcome.returned b delivered c' →
      (b = false ↔ c'.needDrain = 2) := by
  intro b delivered c' heq
  have hpr := Client4.dispatch_preserved fuel c mk h hInv
  rw [heq] at hpr
  have hnd' : c'.needDrain ≤ 2 := hpr.2.2.2 hnd
  unfold Client4.dispatch at heq
  split at heq
  · cases heq
  · split at heq
    · split at heq
      · cases heq
      · injection heq with hb hd hc
        subst hc
        rw [← hb]
        simp only [decide_eq_false_iff_not]
        omega
    · injection heq with hb hd hc
      subst hc
      rw [← hb]
      simp only [decide_eq_false_iff_not]
      omega

/-- Witness for `dispatchFalseIffNeedDrain`: dispatching on a closed
client with an error-capable handler returns `true` and leaves
`kNeedDrain` at 0. -/
theorem dispatchFalseIffNeedDrain_witness :
    (true = false ↔ Client4.sampleClosedClient.needDrain = 2) :=
  dispatchFalseIffNeedDrain 1 Client4.sampleClosedClient (Except.ok default) ⟨true, true⟩
    ⟨by decide, by decide, by decide⟩ (by decide) true (some Client4.UErr.clientClosed)
    Client4.sampleClosedClient (by decide)

/-- C10: `dispatch` throws `InvalidArgumentError` synchronously exactly
when the handler is not an object, or when request construction or the
lifecycle checks fail while the handler has no `onError` function; all
other construction and lifecycle errors are delivered through
`handler.onError` with `dispatch` returning normally, and a successful
`tryRequest` never throws. -/
theorem dispatchErrorRouting (fuel : Nat) (c : Client4.Client)
    (mk : Except Client4.UErr Client4.Request) (h : Client4.Handler) :
    (h.isObject = false →
      Client4.dispatch fuel c mk h =
        Client4.DispatchOutcome.threw Client4.UErr.invalidArgument c) ∧
    (∀ e, h.isObject = true → Client4.tryRequest c mk = Except.error e →
      (h.hasOnError = false →
        Client4.dispatch fuel c mk h =
          Client4.DispatchOutcome.threw Client4.UErr.invalidArgument c) ∧
      (h.hasOnError = true →
        Client4.dispatch fuel c mk h =
          Client4.DispatchOutcome.returned (decide (c.needDrain < 2)) (some e) c)) ∧
    (∀ r, h.isObject = true → Client4.tryRequest c mk = Except.ok r →
      ∃ b c', Client4.dispatch fuel c mk h =
        Client4.DispatchOutcome.returned b none c') := by
  refine ⟨?_, ?_, ?_⟩
  · intro hobj
    unfold Client4.dispatch
    rw [if_pos (by simp [hobj])]
  · intro e hobj htry
    unfold Client4.dispatch
    rw [if_neg (by simp [hobj])]
    simp only [htry]
    constructor
    · intro hoe
      rw [if_pos (by simp [hoe])]
    · intro hoe
      rw [if_neg (by simp [hoe])]
  · intro r hobj htry
    unfold Client4.dispatch
    rw [if_neg (by simp [hobj])]
    simp only [htry]
    exact ⟨_, _, rfl⟩

/-- Witness for `dispatchErrorRouting`: a non-object handler makes
`dispatch` throw `InvalidArgumentError` synchronously. -/
theorem dispatchErrorRouting_witness :
    Client4.dispatch 1 Client4.sampleClient (Except.ok default) ⟨false, false⟩ =
      Client4.DispatchOutcome.threw Client4.UErr.invalidArgument Client4.sampleClient :=
  (dispatchErrorRouting 1 Client4.sampleClient (Except.ok default) ⟨false, false⟩).1 rfl

end Undici
